import Mathlib

/-!
Verification development for the Supabase DB export/import client's
connection/service layer (the `useSupabase` hook, the `ImportView`
SQL-import routine and the `ExportView`/`ImportExport` SQL generator).

The JavaScript values the client handles are shallowly embedded as
`JSValue` (numbers as rationals, `Number.isInteger` becoming "the
denominator is 1"), the network as explicit transports recording what
each HTTP call would return, and every operation as a pure function of
its transport that also reports the trace of requests it issues.
-/

/-- A JavaScript value as the client sees one in a fetched row: `null`,
`undefined`, booleans, numbers (embedded as rationals; `Number.isInteger`
holds exactly when the denominator is 1), strings, and structured
(object/array) values as association lists of fields. -/
inductive JSValue where
  | vnull
  | vundefined
  | vbool (b : Bool)
  | vnum (n : ℚ)
  | vstr (s : String)
  | vobj (fields : List (String × JSValue))

/-- Consume exactly `n` characters satisfying `p`, returning the rest. -/
def matchRun (p : Char → Bool) : Nat → List Char → Option (List Char)
  | 0, cs => some cs
  | _ + 1, [] => none
  | n + 1, c :: cs => if p c then matchRun p n cs else none

/-- Consume exactly the character `ch`, returning the rest. -/
def matchChar (ch : Char) : List Char → Option (List Char)
  | [] => none
  | c :: cs => if c = ch then some cs else none

/-- A hexadecimal digit, case-insensitive: the character class `[0-9a-f]`
under the regexp's `i` flag in `inferDataType`. -/
def isHexDigit (c : Char) : Bool :=
  c.isDigit || (Char.ofNat 97 ≤ c && c ≤ Char.ofNat 102) || (Char.ofNat 65 ≤ c && c ≤ Char.ofNat 70)

/-- The test `/^[0-9a-f]{8}-[0-9a-f]{4}-[0-9a-f]{4}-[0-9a-f]{4}-[0-9a-f]{12}$/i`
from `inferDataType`: anchored at both ends, so the whole string must be
the canonical 8-4-4-4-12 hex UUID form. -/
def isUUIDString (s : String) : Bool :=
  (do
    let cs ← matchRun isHexDigit 8 s.toList
    let cs ← matchChar '-' cs
    let cs ← matchRun isHexDigit 4 cs
    let cs ← matchChar '-' cs
    let cs ← matchRun isHexDigit 4 cs
    let cs ← matchChar '-' cs
    let cs ← matchRun isHexDigit 4 cs
    let cs ← matchChar '-' cs
    let cs ← matchRun isHexDigit 12 cs
    if cs.isEmpty then some () else none : Option Unit).isSome

/-- The test `/^\d{4}-\d{2}-\d{2}T\d{2}:\d{2}:\d{2}/` from `inferDataType`:
anchored at the start only, so it is a prefix match. -/
def isTimestampPrefix (s : String) : Bool :=
  (do
    let cs ← matchRun Char.isDigit 4 s.toList
    let cs ← matchChar '-' cs
    let cs ← matchRun Char.isDigit 2 cs
    let cs ← matchChar '-' cs
    let cs ← matchRun Char.isDigit 2 cs
    let cs ← matchChar 'T' cs
    let cs ← matchRun Char.isDigit 2 cs
    let cs ← matchChar ':' cs
    let cs ← matchRun Char.isDigit 2 cs
    let cs ← matchChar ':' cs
    let _ ← matchRun Char.isDigit 2 cs
    some () : Option Unit).isSome

/-- `inferDataType` from the `useSupabase` hook: maps a sampled field value
to a PostgreSQL type name, first match wins, in the source's order
(null/undefined, boolean, number split on `Number.isInteger`, string with
the UUID test before the timestamp test, object, fallback). -/
def inferDataType (value : JSValue) : String :=
  match value with
  | .vnull => "text"
  | .vundefined => "text"
  | .vbool _ => "boolean"
  | .vnum n => if n.den = 1 then "integer" else "numeric"
  | .vstr s =>
      if isUUIDString s then "uuid"
      else if isTimestampPrefix s then "timestamp with time zone"
      else "text"
  | .vobj _ => "jsonb"

/-- The `TableInfo` shape from `types/database.ts`, as `getTables` fills it. -/
structure TableInfo where
  table_name : String
  table_schema : String
  table_type : String
deriving DecidableEq, Repr

/-- The descriptor every discovery strategy pushes: the name, the fixed
`public` schema and the fixed `BASE TABLE` kind. -/
def mkTable (tableName : String) : TableInfo :=
  { table_name := tableName, table_schema := "public", table_type := "BASE TABLE" }

/-- First character class of `^\/([a-zA-Z_][a-zA-Z0-9_]*)$` in `getTables`. -/
def isIdentStart (c : Char) : Bool := c.isAlpha || c = '_'

/-- Later character class of `^\/([a-zA-Z_][a-zA-Z0-9_]*)$` in `getTables`. -/
def isIdentRest (c : Char) : Bool := c.isAlphanum || c = '_'

/-- `path.match(/^\/([a-zA-Z_][a-zA-Z0-9_]*)$/)` from `getTables`: the
captured identifier when the whole path is a slash followed by one. -/
def pathTableMatch (path : String) : Option String :=
  match path.toList with
  | '/' :: c :: cs =>
      if isIdentStart c && cs.all isIdentRest then some (String.mk (c :: cs)) else none
  | _ => none

/-- Method 1 of `getTables`: every key of the fetched schema document's
`paths` object that matches the path regexp and is not the literal `rpc`
becomes a descriptor, in iteration order. -/
def strategy1 (paths : List String) : List TableInfo :=
  paths.filterMap fun path =>
    match pathTableMatch path with
    | some tableName => if tableName ≠ "rpc" then some (mkTable tableName) else none
    | none => none

/-- Method 1 applied to the parsed schema document: when the document has
no `paths` key, no descriptor is collected. -/
def strategy1Paths : Option (List String) → List TableInfo
  | some paths => strategy1 paths
  | none => []

/-- The hardcoded dictionary `potentialTables` of `getTables` method 2,
in source order. -/
def potentialTables : List String :=
  ["users", "profiles", "posts", "comments", "products", "orders", "todos", "items",
   "categories", "tags", "files", "uploads", "settings", "notifications", "messages",
   "events", "bookings", "payments", "invoices", "customers", "suppliers", "inventory",
   "articles", "pages", "media", "galleries", "reviews", "ratings", "favorites",
   "subscriptions", "plans", "transactions", "logs", "analytics", "reports",
   "teams", "organizations", "projects", "tasks", "issues", "milestones",
   "contacts", "addresses", "phones", "emails", "documents", "attachments"]

/-- Method 2 of `getTables`: probe each dictionary name with a limit-1
read; a name is kept exactly when its probe reports no error (a probe
that throws is caught and skipped, which the boolean models as well). -/
def strategy2 (probe : String → Bool) : List TableInfo :=
  potentialTables.filterMap fun tableName =>
    if probe tableName then some (mkTable tableName) else none

/-- `commonPrefixes` of `getTables` method 4, in source order. -/
def commonPrefixes : List String := ["", "app_", "user_", "admin_", "public_", "data_"]

/-- `commonSuffixes` of `getTables` method 4, in source order. -/
def commonSuffixes : List String := ["", "s", "_data", "_info", "_details", "_records"]

/-- `commonWords` of `getTables` method 4, in source order: the 26 letters
then 14 common stems. -/
def commonWords : List String :=
  ["a", "b", "c", "d", "e", "f", "g", "h", "i", "j", "k", "l", "m",
   "n", "o", "p", "q", "r", "s", "t", "u", "v", "w", "x", "y", "z",
   "data", "info", "list", "item", "record", "entry", "log", "event",
   "action", "status", "type", "kind", "group", "set"]

/-- The names method 4 actually probes: the triple nested loop over
prefixes, words and suffixes in source order, keeping a combination
exactly when `0 < length ∧ length ≤ 20` (the loop skips the others
without issuing a request). -/
def bruteForceNames : List String :=
  commonPrefixes.flatMap fun pre =>
    commonWords.flatMap fun word =>
      commonSuffixes.filterMap fun suf =>
        let tableName := pre ++ word ++ suf
        if 0 < tableName.length ∧ tableName.length ≤ 20 then some tableName else none

/-- Method 4 of `getTables`: probe each brute-force candidate with the
same limit-1 read as method 2; no break, so every candidate is probed
even after some candidate has been accepted. -/
def strategy4 (probe : String → Bool) : List TableInfo :=
  bruteForceNames.filterMap fun tableName =>
    if probe tableName then some (mkTable tableName) else none

/-- What the initial `fetch` of the schema document can come back as:
a thrown network/parse error with its message, a non-success HTTP status
(making `getTables` throw `Failed to fetch schema`), or a parsed JSON
document whose `paths` keys are listed when the key is present. -/
inductive SchemaFetch where
  | unreachable (msg : String)
  | httpError (status : Nat)
  | ok (paths : Option (List String))
deriving DecidableEq, Repr

/-- The remote service as `getTables` observes it: the schema-document
fetch outcome, and for each table name whether a limit-1 read against it
reports no error. -/
structure Transport where
  schemaFetch : SchemaFetch
  probe : String → Bool

/-- One request `getTables` issues: the schema-document fetch, a method-2
dictionary probe, the method-3 introspection fetch, or a method-4
brute-force probe. -/
inductive Request where
  | schemaFetch
  | dictProbe (tableName : String)
  | introspection
  | bruteProbe (tableName : String)
deriving DecidableEq, Repr

/-- Whether a request is a method-4 brute-force probe. -/
def isBruteProbe : Request → Bool
  | .bruteProbe _ => true
  | _ => false

/-- The `discoveredTables` array of `getTables` just before duplicate
removal, for a successfully fetched schema document: method 1 first; the
dictionary pass appended only when the array is still empty; method 3
never pushes; the brute-force pass appended only when the array is still
empty after method 3. -/
def rawDiscovered (probe : String → Bool) (pathsOpt : Option (List String)) : List TableInfo :=
  let t1 := strategy1Paths pathsOpt
  let t2 := if t1 = [] then t1 ++ strategy2 probe else t1
  let t3 := t2
  if t3 = [] then t3 ++ strategy4 probe else t3

/-- The requests `getTables` issues after a successful schema fetch:
methods 2, 3 and 4 each run only while `discoveredTables` is still empty
(method 3 issues its introspection fetch but never adds a table, so
methods 3 and 4 run under the same condition). -/
def requestTrace (probe : String → Bool) (pathsOpt : Option (List String)) : List Request :=
  if strategy1Paths pathsOpt = [] then
    if strategy2 probe = [] then
      Request.schemaFetch ::
        (potentialTables.map Request.dictProbe ++
          Request.introspection :: bruteForceNames.map Request.bruteProbe)
    else Request.schemaFetch :: potentialTables.map Request.dictProbe
  else [Request.schemaFetch]

/-- The `filter`/`findIndex` duplicate removal of `getTables`, with the
names already kept accumulated: an element is kept exactly when no earlier
element of the array has its `table_name`, so each name's first occurrence
wins. -/
def uniqueTablesAux (seen : List String) : List TableInfo → List TableInfo
  | [] => []
  | t :: ts =>
      if t.table_name ∈ seen then uniqueTablesAux seen ts
      else t :: uniqueTablesAux (t.table_name :: seen) ts

/-- The `uniqueTables` value `getTables` returns: the discovered list with
every repeated `table_name` reduced to its first occurrence. -/
def uniqueTables (ts : List TableInfo) : List TableInfo := uniqueTablesAux [] ts

/-- What `getTables` hands its caller: the deduplicated table list, or the
message of the error it throws. -/
inductive GetTablesResult where
  | ok (tables : List TableInfo)
  | error (msg : String)
deriving DecidableEq, Repr

/-- `getTables` from the `useSupabase` hook, with the trace of requests it
issues. A thrown fetch error or a non-success status on the initial
schema fetch reaches the outer catch, which rethrows
`Failed to load tables: …`; after a successful fetch the cascade runs
and the deduplicated array is returned. -/
def getTables (tr : Transport) : GetTablesResult × List Request :=
  match tr.schemaFetch with
  | .unreachable msg =>
      (.error ("Failed to load tables: " ++ msg), [Request.schemaFetch])
  | .httpError status =>
      (.error ("Failed to load tables: Failed to fetch schema: " ++ toString status),
       [Request.schemaFetch])
  | .ok pathsOpt =>
      (.ok (uniqueTables (rawDiscovered tr.probe pathsOpt)), requestTrace tr.probe pathsOpt)

/-- The `ColumnInfo` shape from `types/database.ts`, as `getColumns`
fills it. -/
structure ColumnInfo where
  column_name : String
  data_type : String
  is_nullable : String
  column_default : Option String
  ordinal_position : Nat
deriving DecidableEq, Repr

/-- A fetched row: the sampled object's fields in enumeration order. -/
def SampleRow : Type := List (String × JSValue)

/-- The column list `getColumns` derives from the first sampled row: one
descriptor per field in enumeration order, the type inferred from the
field's value, nullability fixed to `YES`, no default, 1-based position. -/
def inferColumns (sampleRow : List (String × JSValue)) : List ColumnInfo :=
  sampleRow.enum.map fun entry =>
    { column_name := entry.2.1
      data_type := inferDataType entry.2.2
      is_nullable := "YES"
      column_default := none
      ordinal_position := entry.1 + 1 }

/-- What one supabase read (`select('*').limit(n)`) comes back as in
`getColumns`: an error object with its message, or success with the
`data` field, which the client's types allow to be an array or null. -/
inductive ProbeData where
  | err (msg : String)
  | ok (rows : Option (List (List (String × JSValue))))

/-- The remote service as `getColumns` observes it for one table: the
outcome of the initial limit-1 read and of the fallback limit-0 read. -/
structure ColumnsTransport where
  limit1 : ProbeData
  limit0 : ProbeData

/-- What `getColumns` hands its caller: the inferred columns, or the
message of the error it throws. -/
inductive ColumnsResult where
  | ok (cols : List ColumnInfo)
  | error (msg : String)
deriving DecidableEq, Repr

/-- One request `getColumns` issues: the initial limit-1 read or the
fallback limit-0 read. -/
inductive ColumnsRequest where
  | limit1
  | limit0
deriving DecidableEq, Repr

/-- `getColumns` from the `useSupabase` hook, with the trace of reads it
issues. An error on the limit-1 read throws `Cannot access table` with
the underlying message at once; a row infers the columns; otherwise the
limit-0 read is issued, returning `[]` exactly when it reports no error
and non-null data, and throwing `appears to be empty` otherwise. Every
throw is rewrapped as `Failed to load columns: …` by the outer catch. -/
def getColumns (tableName : String) (tr : ColumnsTransport) :
    ColumnsResult × List ColumnsRequest :=
  match tr.limit1 with
  | .err msg =>
      (.error ("Failed to load columns: Cannot access table \"" ++ tableName ++ "\": " ++ msg),
       [ColumnsRequest.limit1])
  | .ok sampleData =>
      match sampleData with
      | some (sampleRow :: _) => (.ok (inferColumns sampleRow), [ColumnsRequest.limit1])
      | _ =>
          match tr.limit0 with
          | .ok (some _) => (.ok [], [ColumnsRequest.limit1, ColumnsRequest.limit0])
          | _ =>
              (.error ("Failed to load columns: Table \"" ++ tableName ++
                 "\" appears to be empty and column structure cannot be determined"),
               [ColumnsRequest.limit1, ColumnsRequest.limit0])

/-- The per-field cleanup `insertRow` and `updateRow` share: a value that
is the empty string becomes null (`value === ''` is true only for the
string `''`); every other value is kept as is. -/
def cleanValue : JSValue → JSValue
  | .vstr s => if s = "" then .vnull else .vstr s
  | v => v

/-- The `cleanedData` object `insertRow` and `updateRow` build from the
caller's fields: same keys in the same order, each value cleaned. -/
def cleanedData (rowData : List (String × JSValue)) : List (String × JSValue) :=
  rowData.map fun kv => (kv.1, cleanValue kv.2)

/-- The insert `insertRow` submits: the table name and the cleaned
payload handed to `client.from(tableName).insert(...)`. -/
structure InsertRequest where
  tableName : String
  payload : List (String × JSValue)

/-- `insertRow` from the `useSupabase` hook, as the request it submits. -/
def insertRow (tableName : String) (rowData : List (String × JSValue)) : InsertRequest :=
  { tableName := tableName, payload := cleanedData rowData }

/-- The update `updateRow` submits: the table name, the cleaned payload
and the single equality filter `eq(primaryKey, keyValue)`. -/
structure UpdateRequest where
  tableName : String
  payload : List (String × JSValue)
  primaryKey : String
  keyValue : JSValue

/-- `updateRow` from the `useSupabase` hook, as the request it submits. -/
def updateRow (tableName : String) (rowData : List (String × JSValue))
    (primaryKey : String) (keyValue : JSValue) : UpdateRequest :=
  { tableName := tableName, payload := cleanedData rowData,
    primaryKey := primaryKey, keyValue := keyValue }

/-- `val.replace(/'/g, "''")` from `generateSQLExport`: every single
quote in the string is doubled. -/
def escapeQuotes (s : String) : String :=
  String.mk (s.toList.flatMap fun c => if c = '\'' then ['\'', '\''] else [c])

/-- One character of a JSON string body as `JSON.stringify` emits it:
quote, backslash and the common control characters escaped. (Other
control characters, which `JSON.stringify` writes as `\u....`, do not
occur in the values this development evaluates.) -/
def jsonEscapeChar (c : Char) : List Char :=
  if c = '"' then ['\\', '"']
  else if c = '\\' then ['\\', '\\']
  else if c = Char.ofNat 10 then ['\\', 'n']
  else if c = Char.ofNat 9 then ['\\', 't']
  else if c = Char.ofNat 13 then ['\\', 'r']
  else [c]

/-- A JSON string literal as `JSON.stringify` emits one. -/
def jsonQuote (s : String) : String :=
  "\"" ++ String.mk (s.toList.flatMap jsonEscapeChar) ++ "\""

/-- `String(val)` for a number: exact for integer-valued numbers; a
non-integer keeps its rational rendering (only the integer case is
evaluated by the claims below). -/
def jsNumberString (q : ℚ) : String :=
  if q.den = 1 then toString q.num else toString q

mutual

/-- The platform's `JSON.stringify`, as `generateSQLExport` applies it to
a structured value, on the embedded value forms. -/
def jsonStringify : JSValue → String
  | .vnull => "null"
  | .vundefined => "null"
  | .vbool b => if b then "true" else "false"
  | .vnum q => jsNumberString q
  | .vstr s => jsonQuote s
  | .vobj fields => "\x7b" ++ jsonFields fields ++ "\x7d"

/-- The comma-separated `"key":value` members of a stringified object. -/
def jsonFields : List (String × JSValue) → String
  | [] => ""
  | [kv] => jsonQuote kv.1 ++ ":" ++ jsonStringify kv.2
  | kv :: rest => jsonQuote kv.1 ++ ":" ++ jsonStringify kv.2 ++ "," ++ jsonFields rest

end

/-- The value encoder of `generateSQLExport` (the `Object.values(row).map`
callback, identical in `ExportView` and `ImportExport`): null and
undefined become the bare literal `NULL`; a string is single-quoted with
embedded quotes doubled; a boolean becomes `TRUE` or `FALSE`; a
structured value is JSON-stringified then single-quoted with embedded
quotes doubled; anything else is `String(val)` unquoted. -/
def sqlValue : JSValue → String
  | .vnull => "NULL"
  | .vundefined => "NULL"
  | .vstr s => "'" ++ escapeQuotes s ++ "'"
  | .vbool b => if b then "TRUE" else "FALSE"
  | .vobj fields => "'" ++ escapeQuotes (jsonStringify (.vobj fields)) ++ "'"
  | .vnum q => jsNumberString q

/-- The `INSERT INTO … VALUES (…);` line `generateSQLExport` emits for
one data row: the row's keys double-quoted and comma-joined, the row's
values encoded by `sqlValue` and comma-joined. -/
def insertStatement (tableName : String) (row : List (String × JSValue)) : String :=
  let columns := String.intercalate ", " (row.map fun kv => "\"" ++ kv.1 ++ "\"")
  let values := String.intercalate ", " (row.map fun kv => sqlValue kv.2)
  "INSERT INTO \"" ++ tableName ++ "\" (" ++ columns ++ ") VALUES (" ++ values ++ ");\n"

/-- The message `executeSQL` always throws: the inner
`Direct SQL execution requires custom database functions…` error,
rewrapped by its own catch with the `SQL execution not available: `
prefix. -/
def executeSQLMessage : String :=
  "SQL execution not available: Direct SQL execution requires custom database functions. Please use the table interface instead."

/-- `executeSQL` from the `useSupabase` hook: unconditionally throws,
whatever the query. -/
def executeSQL (_query : String) : Except String Unit :=
  Except.error executeSQLMessage

/-- The statement list `importSQLData` builds: split the file on `;`,
trim each piece, keep the non-empty pieces that do not start with `--`. -/
def splitSQLStatements (sqlContent : String) : List String :=
  ((sqlContent.splitOn ";").map String.trim).filter fun stmt =>
    decide (0 < stmt.length) && !stmt.startsWith "--"

/-- The result summary `importSQLData` accumulates. -/
structure SQLImportResults where
  statementsExecuted : Nat
  errors : List String
deriving DecidableEq, Repr

/-- One step of `importSQLData`'s loop: a successful execution bumps the
counter, a thrown error appends `SQL Error: …` with the message. -/
def importSQLStep (results : SQLImportResults) (statement : String) : SQLImportResults :=
  match executeSQL statement with
  | Except.ok _ =>
      { statementsExecuted := results.statementsExecuted + 1, errors := results.errors }
  | Except.error msg =>
      { statementsExecuted := results.statementsExecuted,
        errors := results.errors ++ ["SQL Error: " ++ msg] }

/-- `importSQLData` from `ImportView`: run every surviving statement
independently and report the summary. -/
def importSQLData (sqlContent : String) : SQLImportResults :=
  (splitSQLStatements sqlContent).foldl importSQLStep
    { statementsExecuted := 0, errors := [] }

lemma cleanValue_eq_self (v : JSValue) (h : v ≠ JSValue.vstr "") : cleanValue v = v := by
  cases v with
  | vstr s =>
      by_cases hs : s = ""
      · subst hs; exact absurd rfl h
      · simp [cleanValue, hs]
  | vnull => rfl
  | vundefined => rfl
  | vbool b => rfl
  | vnum q => rfl
  | vobj fields => rfl

/-- C2: the schema-inference type mapping is a total, deterministic
function of the sampled value, decided first-match-wins: null and
undefined report `text`; booleans `boolean`; integer-valued numbers
`integer` and other numbers `numeric`; strings `uuid` when the whole
string is the case-insensitive 8-4-4-4-12 hex UUID form, else
`timestamp with time zone` when the `YYYY-MM-DDTHH:MM:SS` prefix
matches, else `text`; structured values `jsonb`; and the eight literal
inputs of the claim map to the eight listed types. -/
theorem inferDataType_type_mapping :
    (∀ v, inferDataType v ∈
      ["text", "boolean", "integer", "numeric", "uuid", "timestamp with time zone", "jsonb"]) ∧
    inferDataType .vnull = "text" ∧
    inferDataType .vundefined = "text" ∧
    (∀ b, inferDataType (.vbool b) = "boolean") ∧
    (∀ q : ℚ, inferDataType (.vnum q) = if q.den = 1 then "integer" else "numeric") ∧
    (∀ s, isUUIDString s = true → inferDataType (.vstr s) = "uuid") ∧
    (∀ s, isUUIDString s = false → isTimestampPrefix s = true →
      inferDataType (.vstr s) = "timestamp with time zone") ∧
    (∀ s, isUUIDString s = false → isTimestampPrefix s = false →
      inferDataType (.vstr s) = "text") ∧
    (∀ fields, inferDataType (.vobj fields) = "jsonb") ∧
    inferDataType (.vnum 3) = "integer" ∧
    inferDataType (.vnum (3.5 : ℚ)) = "numeric" ∧
    inferDataType (.vstr "hello") = "text" ∧
    inferDataType (.vstr "a1b2c3d4-e5f6-7890-abcd-ef1234567890") = "uuid" ∧
    inferDataType (.vstr "2024-01-01T00:00:00") = "timestamp with time zone" ∧
    inferDataType (.vobj [("a", .vnum 1)]) = "jsonb" := by
  have h35 : (3.5 : ℚ) = mkRat 7 2 := by norm_num
  refine ⟨?_, rfl, rfl, fun b => rfl, fun q => rfl, ?_, ?_, ?_, fun fields => rfl,
    by decide, by rw [h35]; decide, by decide, by decide, by decide, rfl⟩
  · intro v
    cases v with
    | vnum q => by_cases h : q.den = 1 <;> simp [inferDataType, h]
    | vstr s =>
        by_cases hu : isUUIDString s <;> by_cases ht : isTimestampPrefix s <;>
          simp [inferDataType, hu, ht]
    | vnull => simp [inferDataType]
    | vundefined => simp [inferDataType]
    | vbool b => simp [inferDataType]
    | vobj fields => simp [inferDataType]
  · intro s h; simp [inferDataType, h]
  · intro s h1 h2; simp [inferDataType, h1, h2]
  · intro s h1 h2; simp [inferDataType, h1, h2]

/-- C8: the payload `insertRow` and `updateRow` actually submit has the
same keys in the same order as the input field map; every key whose
input value is the empty string is mapped to null, and every other key
keeps its original value unchanged. -/
theorem empty_string_normalized_to_null (tableName : String)
    (rowData : List (String × JSValue)) (primaryKey : String) (keyValue : JSValue) :
    ((insertRow tableName rowData).payload.map Prod.fst = rowData.map Prod.fst) ∧
    ((updateRow tableName rowData primaryKey keyValue).payload
        = (insertRow tableName rowData).payload) ∧
    (∀ k v, (k, v) ∈ rowData →
      (v = JSValue.vstr "" → (k, JSValue.vnull) ∈ (insertRow tableName rowData).payload) ∧
      (v ≠ JSValue.vstr "" → (k, v) ∈ (insertRow tableName rowData).payload)) := by
  refine ⟨?_, rfl, ?_⟩
  · simp [insertRow, cleanedData, List.map_map]
  · intro k v hmem
    constructor
    · intro he
      subst he
      have : (k, JSValue.vnull) = (fun kv : String × JSValue => (kv.1, cleanValue kv.2))
          (k, JSValue.vstr "") := by simp [cleanValue]
      rw [this]
      exact List.mem_map_of_mem _ hmem
    · intro hne
      have : (k, v) = (fun kv : String × JSValue => (kv.1, cleanValue kv.2)) (k, v) := by
        simp [cleanValue_eq_self v hne]
      rw [this]
      exact List.mem_map_of_mem _ hmem

/-- C9: each exported data row produces one `INSERT INTO` statement;
null and undefined are encoded as the bare literal `NULL`, strings are
single-quoted with embedded quotes doubled, booleans as `TRUE`/`FALSE`,
structured values as their quote-escaped JSON serialization, integer
numbers as their plain unquoted rendering; the row
`(id: 1, name: O'Brien)` yields exactly the statement with `'O''Brien'`
doubled and `1` unquoted. -/
theorem sql_export_insert_encoding :
    sqlValue JSValue.vnull = "NULL" ∧
    sqlValue JSValue.vundefined = "NULL" ∧
    (∀ b, sqlValue (JSValue.vbool b) = if b then "TRUE" else "FALSE") ∧
    (∀ s, sqlValue (JSValue.vstr s) = "'" ++ escapeQuotes s ++ "'") ∧
    (∀ fields, sqlValue (JSValue.vobj fields)
        = "'" ++ escapeQuotes (jsonStringify (JSValue.vobj fields)) ++ "'") ∧
    (∀ q : ℚ, q.den = 1 → sqlValue (JSValue.vnum q) = toString q.num) ∧
    escapeQuotes "O'Brien" = "O''Brien" ∧
    (insertStatement "customers" [("id", JSValue.vnum 1), ("name", JSValue.vstr "O'Brien")]
        = "INSERT INTO \"customers\" (\"id\", \"name\") VALUES (1, 'O''Brien');\n") ∧
    sqlValue (JSValue.vobj [("a", JSValue.vnum 1)]) = "'\x7b\"a\":1\x7d'" := by
  refine ⟨rfl, rfl, fun b => rfl, fun s => rfl, fun fields => rfl, ?_, by decide, by decide, rfl⟩
  intro q h
  simp [sqlValue, jsNumberString, h]

lemma importSQL_foldl (stmts : List String) (acc : SQLImportResults) :
    stmts.foldl importSQLStep acc =
      { statementsExecuted := acc.statementsExecuted,
        errors := acc.errors ++ stmts.map fun _ => "SQL Error: " ++ executeSQLMessage } := by
  induction stmts generalizing acc with
  | nil => simp
  | cons s rest ih =>
      simp [List.foldl_cons, importSQLStep, executeSQL, ih, List.append_assoc]

/-- C10: `executeSQL` throws unconditionally, so every statement that
survives `importSQLData`'s split-and-filter fails: the summary counts
zero executed statements and accumulates exactly one `SQL Error` entry
per surviving statement. -/
theorem importSQLData_always_fails (sqlContent : String) :
    (importSQLData sqlContent).statementsExecuted = 0 ∧
    (importSQLData sqlContent).errors
      = (splitSQLStatements sqlContent).map (fun _ => "SQL Error: " ++ executeSQLMessage) ∧
    (importSQLData sqlContent).errors.length = (splitSQLStatements sqlContent).length ∧
    (∀ query, executeSQL query = Except.error executeSQLMessage) := by
  have h := importSQL_foldl (splitSQLStatements sqlContent)
    { statementsExecuted := 0, errors := [] }
  refine ⟨?_, ?_, ?_, fun _ => rfl⟩ <;> simp [importSQLData, h]

/-- C1: the discovery cascade short-circuits. After a successful schema
fetch, if strategy 1 (schema-document parsing) yields at least one
table the request trace holds no dictionary probe, no introspection
fetch and no brute-force probe; strategy 2 runs exactly when strategy 1
yielded zero tables, and strategies 3 and 4 run exactly when strategies
1 and 2 both yielded zero tables (strategy 3 itself never yields a
table). -/
theorem discovery_cascade_short_circuit (tr : Transport) (pathsOpt : Option (List String))
    (h : tr.schemaFetch = SchemaFetch.ok pathsOpt) :
    (strategy1Paths pathsOpt ≠ [] → (getTables tr).2 = [Request.schemaFetch]) ∧
    (strategy1Paths pathsOpt = [] → strategy2 tr.probe ≠ [] →
      (getTables tr).2 = Request.schemaFetch :: potentialTables.map Request.dictProbe) ∧
    (strategy1Paths pathsOpt = [] → strategy2 tr.probe = [] →
      (getTables tr).2 = Request.schemaFetch ::
        (potentialTables.map Request.dictProbe ++
          Request.introspection :: bruteForceNames.map Request.bruteProbe)) := by
  refine ⟨?_, ?_, ?_⟩
  · intro h1; simp [getTables, h, requestTrace, h1]
  · intro h1 h2; simp [getTables, h, requestTrace, h1, h2]
  · intro h1 h2; simp [getTables, h, requestTrace, h1, h2]

theorem discovery_cascade_short_circuit_witness :
    strategy1Paths (some ["/users"]) ≠ [] ∧
    (getTables { schemaFetch := SchemaFetch.ok (some ["/users"]), probe := fun _ => false }).2
      = [Request.schemaFetch] :=
  ⟨by decide,
   (discovery_cascade_short_circuit
      { schemaFetch := SchemaFetch.ok (some ["/users"]), probe := fun _ => false }
      (some ["/users"]) rfl).1 (by decide)⟩

/-- C3 counterexample: a connection whose initial schema-document fetch
returns a non-success HTTP status makes `getTables` raise
`Failed to load tables` to the caller instead of returning a sequence. -/
theorem getTables_throws_on_fetch_failure :
    (getTables { schemaFetch := SchemaFetch.httpError 500, probe := fun _ => false }).1
      = GetTablesResult.error "Failed to load tables: Failed to fetch schema: 500" := by
  decide

/-- C3 amended: after a successful schema-document fetch, `getTables`
always returns a (possibly empty) sequence — individual strategy probes
that fail are skipped silently, and when every strategy yields nothing
the result is the empty sequence; but when the initial fetch throws or
returns a non-success status, `getTables` raises a
`Failed to load tables` error to the caller. -/
theorem getTables_failure_semantics (tr : Transport) :
    (∀ pathsOpt, tr.schemaFetch = SchemaFetch.ok pathsOpt →
      (getTables tr).1 = GetTablesResult.ok (uniqueTables (rawDiscovered tr.probe pathsOpt))) ∧
    (∀ pathsOpt, tr.schemaFetch = SchemaFetch.ok pathsOpt → strategy1Paths pathsOpt = [] →
      strategy2 tr.probe = [] → strategy4 tr.probe = [] →
      (getTables tr).1 = GetTablesResult.ok []) ∧
    (∀ msg, tr.schemaFetch = SchemaFetch.unreachable msg →
      (getTables tr).1 = GetTablesResult.error ("Failed to load tables: " ++ msg)) ∧
    (∀ status, tr.schemaFetch = SchemaFetch.httpError status →
      (getTables tr).1 = GetTablesResult.error
        ("Failed to load tables: Failed to fetch schema: " ++ toString status)) := by
  refine ⟨?_, ?_, ?_, ?_⟩
  · intro pathsOpt h; simp [getTables, h]
  · intro pathsOpt h h1 h2 h4
    simp [getTables, h, rawDiscovered, h1, h2, h4, uniqueTables, uniqueTablesAux]
  · intro msg h; simp [getTables, h]
  · intro status h; simp [getTables, h]

/-- C6 counterexample: when the limit-1 probe succeeds with zero rows
and the limit-0 probe succeeds without error but with null data,
`getColumns` does not return the empty column sequence — it throws the
`appears to be empty` error. -/
theorem getColumns_cex_null_limit0 :
    (getColumns "t" { limit1 := ProbeData.ok (some []), limit0 := ProbeData.ok none }).1
      = ColumnsResult.error
          "Failed to load columns: Table \"t\" appears to be empty and column structure cannot be determined" := by
  rfl

/-- C6 amended: if the initial limit-1 probe errors, `getColumns` fails
immediately (no second probe) with the underlying message; if it
succeeds with zero rows a second limit-0 probe is issued, and
`getColumns` returns the empty column sequence when that probe succeeds
without error and with a non-null row array, and fails when that probe
errors — or when it succeeds with null data. -/
theorem getColumns_probe_semantics (tableName : String) (tr : ColumnsTransport) :
    (∀ msg, tr.limit1 = ProbeData.err msg →
      getColumns tableName tr = (ColumnsResult.error
          ("Failed to load columns: Cannot access table \"" ++ tableName ++ "\": " ++ msg),
        [ColumnsRequest.limit1])) ∧
    (tr.limit1 = ProbeData.ok (some []) →
      (getColumns tableName tr).2 = [ColumnsRequest.limit1, ColumnsRequest.limit0] ∧
      (∀ rows, tr.limit0 = ProbeData.ok (some rows) →
        (getColumns tableName tr).1 = ColumnsResult.ok []) ∧
      (∀ msg, tr.limit0 = ProbeData.err msg →
        (getColumns tableName tr).1 = ColumnsResult.error
          ("Failed to load columns: Table \"" ++ tableName ++
            "\" appears to be empty and column structure cannot be determined")) ∧
      (tr.limit0 = ProbeData.ok none →
        (getColumns tableName tr).1 = ColumnsResult.error
          ("Failed to load columns: Table \"" ++ tableName ++
            "\" appears to be empty and column structure cannot be determined"))) := by
  refine ⟨?_, ?_⟩
  · intro msg h; simp [getColumns, h]
  · intro h1
    refine ⟨?_, ?_, ?_, ?_⟩
    · cases h0 : tr.limit0 with
      | err msg => simp [getColumns, h1, h0]
      | ok rows => cases rows <;> simp [getColumns, h1, h0]
    · intro rows h0; simp [getColumns, h1, h0]
    · intro msg h0; simp [getColumns, h1, h0]
    · intro h0; simp [getColumns, h1, h0]

lemma commonWords_length_pos : ∀ w ∈ commonWords, 0 < w.length := by decide

/-- C5: when strategies 1 and 2 yield zero tables (strategy 3 never
yields any), the brute-force pass probes exactly the combinations
`prefix ++ word ++ suffix` over the configured 6 prefixes, 40 words and
6 suffixes whose length is at most 20 — the whole cross product, in
order, with no early exit: the trace below is the full filtered cross
product whatever the probe outcomes are, including probes that accept. -/
theorem brute_force_cross_product (tr : Transport) (pathsOpt : Option (List String))
    (h : tr.schemaFetch = SchemaFetch.ok pathsOpt)
    (h1 : strategy1Paths pathsOpt = [])
    (h2 : strategy2 tr.probe = []) :
    ((getTables tr).2.filter isBruteProbe = bruteForceNames.map Request.bruteProbe) ∧
    (∀ n : String, n ∈ bruteForceNames ↔
      ∃ pre ∈ commonPrefixes, ∃ word ∈ commonWords, ∃ suf ∈ commonSuffixes,
        n = pre ++ word ++ suf ∧ n.length ≤ 20) := by
  constructor
  · simp [getTables, h, requestTrace, h1, h2, List.filter_cons, List.filter_append,
      List.filter_map, isBruteProbe, Function.comp_def]
  · intro n
    simp only [bruteForceNames, List.mem_flatMap, List.mem_filterMap]
    constructor
    · rintro ⟨pre, hpre, word, hword, suf, hsuf, hif⟩
      split at hif
      case isTrue hcond =>
        cases hif
        exact ⟨pre, hpre, word, hword, suf, hsuf, rfl, hcond.2⟩
      case isFalse => exact absurd hif (by simp)
    · rintro ⟨pre, hpre, word, hword, suf, hsuf, rfl, hlen⟩
      refine ⟨pre, hpre, word, hword, suf, hsuf, ?_⟩
      have hpos : 0 < (pre ++ word ++ suf).length := by
        have hw := commonWords_length_pos word hword
        rw [String.length_append, String.length_append]
        omega
      rw [if_pos ⟨hpos, hlen⟩]

theorem brute_force_cross_product_witness :
    ((getTables { schemaFetch := SchemaFetch.ok none, probe := fun n => n == "data" }).2.filter
        isBruteProbe = bruteForceNames.map Request.bruteProbe) ∧
    "data" ∈ bruteForceNames := by
  have h := brute_force_cross_product
    { schemaFetch := SchemaFetch.ok none, probe := fun n => n == "data" }
    none rfl rfl (by decide)
  refine ⟨h.1, (h.2 "data").mpr ⟨"", by decide, "data", by decide, "", by decide, rfl, by decide⟩⟩

lemma uniqueTablesAux_not_mem_seen (seen : List String) (ts : List TableInfo) :
    ∀ u ∈ uniqueTablesAux seen ts, u.table_name ∉ seen := by
  induction ts generalizing seen with
  | nil => simp [uniqueTablesAux]
  | cons t ts ih =>
      intro u hu
      by_cases h : t.table_name ∈ seen
      · rw [uniqueTablesAux, if_pos h] at hu
        exact ih seen u hu
      · rw [uniqueTablesAux, if_neg h] at hu
        rcases List.mem_cons.mp hu with rfl | hu'
        · exact h
        · intro hmem
          exact ih (t.table_name :: seen) u hu' (List.mem_cons_of_mem _ hmem)

lemma uniqueTablesAux_nodup (seen : List String) (ts : List TableInfo) :
    ((uniqueTablesAux seen ts).map TableInfo.table_name).Nodup := by
  induction ts generalizing seen with
  | nil => simp [uniqueTablesAux]
  | cons t ts ih =>
      by_cases h : t.table_name ∈ seen
      · rw [uniqueTablesAux, if_pos h]
        exact ih seen
      · rw [uniqueTablesAux, if_neg h]
        simp only [List.map_cons, List.nodup_cons]
        refine ⟨?_, ih _⟩
        intro hmem
        rcases List.mem_map.mp hmem with ⟨u, hu, hname⟩
        exact uniqueTablesAux_not_mem_seen _ _ u hu (hname ▸ List.mem_cons_self _ _)

lemma uniqueTablesAux_find (seen : List String) (ts : List TableInfo) (u : TableInfo)
    (hu : u ∈ uniqueTablesAux seen ts) :
    ts.find? (fun t => t.table_name == u.table_name) = some u := by
  induction ts generalizing seen with
  | nil => simp [uniqueTablesAux] at hu
  | cons t ts ih =>
      by_cases h : t.table_name ∈ seen
      · rw [uniqueTablesAux, if_pos h] at hu
        have hne : (t.table_name == u.table_name) = false := by
          have := uniqueTablesAux_not_mem_seen seen ts u hu
          simp only [beq_eq_false_iff_ne, ne_eq]
          intro he
          exact this (he ▸ h)
        rw [List.find?_cons, hne]
        exact ih seen hu
      · rw [uniqueTablesAux, if_neg h] at hu
        rcases List.mem_cons.mp hu with rfl | hu'
        · rw [List.find?_cons, show (u.table_name == u.table_name) = true by simp]
        · have hne : (t.table_name == u.table_name) = false := by
            have := uniqueTablesAux_not_mem_seen (t.table_name :: seen) ts u hu'
            simp only [beq_eq_false_iff_ne, ne_eq]
            intro he
            exact this (he ▸ List.mem_cons_self _ _)
          rw [List.find?_cons, hne]
          exact ih (t.table_name :: seen) hu'

lemma uniqueTablesAux_complete (seen : List String) (ts : List TableInfo) :
    ∀ t ∈ ts, t.table_name ∈ seen ∨
      ∃ u ∈ uniqueTablesAux seen ts, u.table_name = t.table_name := by
  induction ts generalizing seen with
  | nil => simp
  | cons a ts ih =>
      intro t ht
      rcases List.mem_cons.mp ht with rfl | ht'
      · by_cases h : t.table_name ∈ seen
        · exact Or.inl h
        · exact Or.inr ⟨t, by rw [uniqueTablesAux, if_neg h]; exact List.mem_cons_self _ _, rfl⟩
      · by_cases h : a.table_name ∈ seen
        · rcases ih seen t ht' with h1 | ⟨u, hu, he⟩
          · exact Or.inl h1
          · exact Or.inr ⟨u, by rw [uniqueTablesAux, if_pos h]; exact hu, he⟩
        · rcases ih (a.table_name :: seen) t ht' with h1 | ⟨u, hu, he⟩
          · rcases List.mem_cons.mp h1 with he | h2
            · refine Or.inr ⟨a, ?_, he.symm⟩
              rw [uniqueTablesAux, if_neg h]
              exact List.mem_cons_self _ _
            · exact Or.inl h2
          · refine Or.inr ⟨u, ?_, he⟩
            rw [uniqueTablesAux, if_neg h]
            exact List.mem_cons_of_mem _ hu

/-- C7: every successful run of `getTables` returns each table name at
most once; the descriptor kept for a name is the first occurrence of
that name in the pre-deduplication discovery order, and every discovered
name survives into the result. -/
theorem discovery_result_deduplicated (tr : Transport) (pathsOpt : Option (List String))
    (ts : List TableInfo) (h : tr.schemaFetch = SchemaFetch.ok pathsOpt)
    (hts : (getTables tr).1 = GetTablesResult.ok ts) :
    ((ts.map TableInfo.table_name).Nodup) ∧
    (∀ u ∈ ts, (rawDiscovered tr.probe pathsOpt).find?
        (fun t => t.table_name == u.table_name) = some u) ∧
    (∀ t ∈ rawDiscovered tr.probe pathsOpt, ∃ u ∈ ts, u.table_name = t.table_name) := by
  have hts' : ts = uniqueTables (rawDiscovered tr.probe pathsOpt) := by
    simp only [getTables, h] at hts
    exact (GetTablesResult.ok.inj hts).symm
  subst hts'
  refine ⟨uniqueTablesAux_nodup _ _, ?_, ?_⟩
  · intro u hu
    exact uniqueTablesAux_find [] _ u hu
  · intro t ht
    rcases uniqueTablesAux_complete [] _ t ht with h1 | h2
    · simp at h1
    · exact h2

theorem discovery_result_deduplicated_witness :
    (getTables
        { schemaFetch := SchemaFetch.ok (some ["/users", "/users", "/posts"]),
          probe := fun _ => false }).1
      = GetTablesResult.ok [mkTable "users", mkTable "posts"] ∧
    (([mkTable "users", mkTable "posts"]).map TableInfo.table_name).Nodup :=
  ⟨by decide,
   (discovery_result_deduplicated
      { schemaFetch := SchemaFetch.ok (some ["/users", "/users", "/posts"]),
        probe := fun _ => false }
      (some ["/users", "/users", "/posts"]) [mkTable "users", mkTable "posts"]
      rfl (by decide)).1⟩

lemma slash_append_toList (s : String) : ("/" ++ s).toList = '/' :: s.toList := rfl

lemma string_ext {s t : String} (h : s.toList = t.toList) : s = t := by
  cases s; cases t; exact congrArg String.mk h

lemma mk_toList (s : String) : String.mk s.toList = s := rfl

lemma pathTableMatch_eq_some (path tableName : String) :
    pathTableMatch path = some tableName ↔
      path.toList = '/' :: tableName.toList ∧
      (∃ c cs, tableName.toList = c :: cs ∧ isIdentStart c = true ∧
        ∀ d ∈ cs, isIdentRest d = true) := by
  constructor
  · intro h
    unfold pathTableMatch at h
    split at h
    next c cs heq =>
      split at h
      next hc =>
        injection h with h'
        subst h'
        refine ⟨heq, c, cs, rfl, ?_, ?_⟩
        · exact (Bool.and_eq_true _ _ |>.mp hc).1
        · have := (Bool.and_eq_true _ _ |>.mp hc).2
          simpa [List.all_eq_true] using this
      next => simp at h
    next => simp at h
  · rintro ⟨hp, c, cs, ht, hs, hr⟩
    unfold pathTableMatch
    rw [hp, ht]
    have hcond : (isIdentStart c && cs.all isIdentRest) = true := by
      rw [Bool.and_eq_true]
      exact ⟨hs, List.all_eq_true.mpr hr⟩
    show (if isIdentStart c && cs.all isIdentRest then some (String.mk (c :: cs)) else none)
        = some tableName
    rw [if_pos hcond]
    exact congrArg some (by rw [← ht]; rfl)

/-- C4: in discovery strategy 1, a descriptor is emitted for exactly
those paths of the schema document that are a slash followed by an
identifier (a letter or underscore then letters, digits or
underscores) other than the literal `rpc`; every emitted descriptor
fixes the schema name to `public` and the kind to `BASE TABLE`. -/
theorem strategy1_table_candidates (paths : List String) (t : TableInfo) :
    t ∈ strategy1 paths ↔
      ("/" ++ t.table_name) ∈ paths ∧
      (∃ c cs, t.table_name.toList = c :: cs ∧ (c.isAlpha = true ∨ c = '_') ∧
        (∀ d ∈ cs, d.isAlphanum = true ∨ d = '_')) ∧
      t.table_name ≠ "rpc" ∧
      t.table_schema = "public" ∧ t.table_type = "BASE TABLE" := by
  constructor
  · intro hmem
    rcases List.mem_filterMap.mp hmem with ⟨p, hp, hfp⟩
    rcases hpm : pathTableMatch p with _ | n
    · rw [hpm] at hfp; simp at hfp
    · rw [hpm] at hfp
      change (if n ≠ "rpc" then some (mkTable n) else none) = some t at hfp
      by_cases hn : n = "rpc"
      · rw [if_neg (by simp [hn])] at hfp; simp at hfp
      · rw [if_pos hn] at hfp
        injection hfp with hft
        subst hft
        have hchar := (pathTableMatch_eq_some p n).mp hpm
        rcases hchar with ⟨hpl, c, cs, hnl, hs, hr⟩
        refine ⟨?_, ⟨c, cs, hnl, ?_, ?_⟩, hn, rfl, rfl⟩
        · show ("/" ++ n) ∈ paths
          have hpe : p = "/" ++ n := string_ext (by rw [slash_append_toList, hpl])
          rwa [← hpe]
        · simpa [isIdentStart] using hs
        · intro d hd
          simpa [isIdentRest] using hr d hd
  · rintro ⟨hpmem, ⟨c, cs, hnl, hs, hr⟩, hrpc, hschema, htype⟩
    obtain ⟨name, schema, type⟩ := t
    simp only at hschema htype hrpc hnl hpmem ⊢
    subst hschema
    subst htype
    apply List.mem_filterMap.mpr
    refine ⟨"/" ++ name, hpmem, ?_⟩
    have hpm : pathTableMatch ("/" ++ name) = some name := by
      apply (pathTableMatch_eq_some _ _).mpr
      refine ⟨slash_append_toList name, c, cs, hnl, ?_, ?_⟩
      · simpa [isIdentStart] using hs
      · intro d hd
        simpa [isIdentRest] using hr d hd
    rw [hpm]
    show (if name ≠ "rpc" then some (mkTable name) else none)
        = some { table_name := name, table_schema := "public", table_type := "BASE TABLE" }
    rw [if_pos hrpc]
    rfl
